import Mathlib

set_option maxRecDepth 8000
set_option maxHeartbeats 1000000

-- Shallow embedding of the agent core (agent.py, tools.py): tool-call
-- parsers, tool registry, execution engine, transcript builder and the
-- single-shot CodeAgent run contract. Machine strings are lists of
-- characters; Python exceptions are modelled with Except.

/-- Opening curly brace character, written numerically. -/
def lbrace : Char := Char.ofNat 123

/-- Closing curly brace character, written numerically. -/
def rbrace : Char := Char.ofNat 125

/-- Apostrophe character, written numerically. -/
def apos : Char := Char.ofNat 39

/-- Backtick character, written numerically. -/
def btick : Char := Char.ofNat 96

/-- Characters treated as whitespace by Python str.strip with no arguments
(ASCII subset). -/
def isPyWs (c : Char) : Bool :=
  c = ' ' || c = '\t' || c = '\n' || c = '\r' || c = Char.ofNat 11 || c = Char.ofNat 12

/-- Python str.strip with no arguments: drop leading and trailing whitespace. -/
def pyStrip (l : List Char) : List Char :=
  ((l.dropWhile isPyWs).reverse.dropWhile isPyWs).reverse

/-- Python substring membership test (the in operator on str). -/
def pyContains (pat : List Char) : List Char → Bool
  | [] => pat.isPrefixOf []
  | c :: rest => pat.isPrefixOf (c :: rest) || pyContains pat rest

/-- Fueled worker for pySplit; with fuel at least the length of the text
the fuel never runs out, since every step consumes at least one
character. -/
def pySplitAux (sep : List Char) : Nat → List Char → List (List Char)
  | _, [] => [[]]
  | 0, l => [l]
  | fuel + 1, c :: rest =>
    if sep ≠ [] ∧ sep.isPrefixOf (c :: rest) then
      [] :: pySplitAux sep fuel ((c :: rest).drop sep.length)
    else
      match pySplitAux sep fuel rest with
      | [] => [[c]]
      | h :: t => (c :: h) :: t

/-- Python str.split with a non-empty separator: split on each
left-to-right non-overlapping occurrence. -/
def pySplit (sep l : List Char) : List (List Char) := pySplitAux sep l.length l

/-- Fueled worker for pyReplace; with fuel at least the length of the
text the fuel never runs out. -/
def pyReplaceAux (pat repl : List Char) : Nat → List Char → List Char
  | _, [] => []
  | 0, l => l
  | fuel + 1, c :: rest =>
    if pat ≠ [] ∧ pat.isPrefixOf (c :: rest) then
      repl ++ pyReplaceAux pat repl fuel ((c :: rest).drop pat.length)
    else
      c :: pyReplaceAux pat repl fuel rest

/-- Python str.replace: replace each left-to-right non-overlapping
occurrence of a non-empty pattern. -/
def pyReplace (pat repl l : List Char) : List Char := pyReplaceAux pat repl l.length l

/-- Helper for pyFind: index of the first occurrence starting from offset i. -/
def pyFindAux (pat : List Char) : List Char → Nat → Int
  | [], i => if pat.isPrefixOf ([] : List Char) then (i : Int) else -1
  | c :: rest, i => if pat.isPrefixOf (c :: rest) then (i : Int) else pyFindAux pat rest (i + 1)

/-- Python str.find: index of the first occurrence, or -1. -/
def pyFind (pat l : List Char) : Int := pyFindAux pat l 0

/-- Index of the last occurrence of a character, as produced by taking the
last start position of re.finditer over a one-character pattern. -/
def lastIdx (c : Char) : List Char → Option Nat
  | [] => none
  | x :: rest =>
    match lastIdx c rest with
    | some i => some (i + 1)
    | none => if x = c then some 0 else none

/-- Python slicing with step one and possibly negative endpoints:
negative endpoints count from the end, and both are clamped to the list. -/
def pySliceInt (l : List Char) (a b : Int) : List Char :=
  (l.take (if b < 0 then max (b + l.length) 0 else min b l.length).toNat).drop
    (if a < 0 then max (a + l.length) 0 else min a l.length).toNat

/-- Join a list of strings with a separator, as Python str.join. -/
def strJoin (sep : String) : List String → String
  | [] => ""
  | [x] => x
  | x :: y :: rest => x ++ sep ++ strJoin sep (y :: rest)

/-- Generic association-list lookup modelling Python dict indexing. -/
def assocLookup {α : Type} (k : String) : List (String × α) → Option α
  | [] => none
  | kv :: rest => if kv.1 = k then some kv.2 else assocLookup k rest

/-- Insert into an association list with Python dict update semantics:
replace the value at the first occurrence of the key, else append. -/
def assocInsert {α : Type} (k : String) (v : α) : List (String × α) → List (String × α)
  | [] => [(k, v)]
  | kv :: rest => if kv.1 = k then (k, v) :: rest else kv :: assocInsert k v rest

-- JSON values as produced by Python json.loads with strict set to False.
-- Non-integral numbers are kept as their source token; Python dicts are
-- insertion-ordered association lists built with dict update semantics.

/-- JSON value as decoded by the Python json module. -/
inductive Json where
  | null
  | bool (b : Bool)
  | int (n : Int)
  | float (tok : String)
  | str (s : String)
  | arr (elems : List Json)
  | obj (fields : List (String × Json))

/-- Python dict built from a pair list, later keys overwriting earlier. -/
def dictOfPairs (ps : List (String × Json)) : List (String × Json) :=
  ps.foldl (fun d kv => assocInsert kv.1 kv.2 d) []

/-- Whitespace characters skipped by the json decoder. -/
def jsonWs (c : Char) : Bool := c = ' ' || c = '\t' || c = '\n' || c = '\r'

/-- Skip json whitespace, keeping track of the character position. -/
def skipJsonWs : List Char → Nat → List Char × Nat
  | [], p => ([], p)
  | c :: rest, p => if jsonWs c then skipJsonWs rest (p + 1) else (c :: rest, p)

/-- Value of a hexadecimal digit. -/
def hexVal (c : Char) : Option Nat :=
  if '0' ≤ c ∧ c ≤ '9' then some (c.toNat - 48)
  else if 'a' ≤ c ∧ c ≤ 'f' then some (c.toNat - 87)
  else if 'A' ≤ c ∧ c ≤ 'F' then some (c.toNat - 70)
  else none

/-- Four hexadecimal digits read from the front of the list. -/
def hex4 : List Char → Option Nat
  | a :: b :: c :: d :: _ => do
    let va ← hexVal a
    let vb ← hexVal b
    let vc ← hexVal c
    let vd ← hexVal d
    pure (((va * 16 + vb) * 16 + vc) * 16 + vd)
  | _ => none

/-- Translation of a single-character json string escape. -/
def escChar (c : Char) : Option Char :=
  if c = '"' then some '"'
  else if c = '\\' then some '\\'
  else if c = '/' then some '/'
  else if c = 'b' then some (Char.ofNat 8)
  else if c = 'f' then some (Char.ofNat 12)
  else if c = 'n' then some '\n'
  else if c = 'r' then some '\r'
  else if c = 't' then some '\t'
  else none

/-- Body of a json string after its opening quote, in non-strict mode:
control characters are allowed literally, escapes are decoded, and a
backslash-u escape reads four hex digits with surrogate-pair combining.
Returns the decoded characters, the rest of the input and the position
one past the closing quote. Errors carry the decoder message and
position, with startPos the index of the opening quote. -/
def parseJsonString (startPos : Nat) (fuel : Nat) (l : List Char) (p : Nat) :
    Except (String × Nat) (List Char × List Char × Nat) :=
  match fuel with
  | 0 => .error ("fuel exhausted", p)
  | fuel + 1 =>
    match l with
    | [] => .error ("Unterminated string starting at", startPos)
    | c :: rest =>
      if c = '"' then .ok ([], rest, p + 1)
      else if c = '\\' then
        match rest with
        | [] => .error ("Unterminated string starting at", startPos)
        | e :: rest2 =>
          if e = 'u' then
            match hex4 rest2 with
            | none => .error ("Invalid \\uXXXX escape", p + 1)
            | some n =>
              if 0xD800 ≤ n ∧ n ≤ 0xDBFF then
                match rest2.drop 4 with
                | '\\' :: 'u' :: rest3 =>
                  match hex4 rest3 with
                  | some m =>
                    if 0xDC00 ≤ m ∧ m ≤ 0xDFFF then
                      match parseJsonString startPos fuel (rest3.drop 4) (p + 12) with
                      | .ok (cs, r, q) =>
                        .ok (Char.ofNat (0x10000 + (n - 0xD800) * 0x400 + (m - 0xDC00)) :: cs, r, q)
                      | .error err => .error err
                    else
                      match parseJsonString startPos fuel (rest2.drop 4) (p + 6) with
                      | .ok (cs, r, q) => .ok (Char.ofNat n :: cs, r, q)
                      | .error err => .error err
                  | none =>
                    match parseJsonString startPos fuel (rest2.drop 4) (p + 6) with
                    | .ok (cs, r, q) => .ok (Char.ofNat n :: cs, r, q)
                    | .error err => .error err
                | _ =>
                  match parseJsonString startPos fuel (rest2.drop 4) (p + 6) with
                  | .ok (cs, r, q) => .ok (Char.ofNat n :: cs, r, q)
                  | .error err => .error err
              else
                match parseJsonString startPos fuel (rest2.drop 4) (p + 6) with
                | .ok (cs, r, q) => .ok (Char.ofNat n :: cs, r, q)
                | .error err => .error err
          else
            match escChar e with
            | some ch =>
              match parseJsonString startPos fuel rest2 (p + 2) with
              | .ok (cs, r, q) => .ok (ch :: cs, r, q)
              | .error err => .error err
            | none => .error ("Invalid \\escape", p)
      else
        match parseJsonString startPos fuel rest (p + 1) with
        | .ok (cs, r, q) => .ok (c :: cs, r, q)
        | .error err => .error err

/-- Integer value of a non-empty digit list. -/
def digitsToNat (ds : List Char) : Nat :=
  ds.foldl (fun acc c => acc * 10 + (c.toNat - 48)) 0

/-- Match of the json number regular expression at the front of the input:
an optional minus sign, an integer part that is zero or starts with a
non-zero digit, then optional fraction and exponent groups. Returns the
decoded value (an Int when there is no fraction and no exponent, else the
matched token kept as text), the rest, and the new position. -/
def parseJsonNumber (l : List Char) (p : Nat) : Option (Json × List Char × Nat) :=
  let signed : Bool × List Char := match l with
    | '-' :: r => (true, r)
    | _ => (false, l)
  let neg := signed.1
  let l1 := signed.2
  let intPart : Option (List Char × List Char) := match l1 with
    | '0' :: r => some (['0'], r)
    | c :: r => if c.isDigit then
        let sp := r.span Char.isDigit
        some (c :: sp.1, sp.2)
      else none
    | [] => none
  match intPart with
  | none => none
  | some (ds, l2) =>
    let fracPart : Option (List Char × List Char) := match l2 with
      | '.' :: r =>
        match r with
        | c :: _ => if c.isDigit then
            let sp := r.span Char.isDigit
            some ('.' :: sp.1, sp.2)
          else none
        | [] => none
      | _ => none
    let l3 := match fracPart with | some fr => fr.2 | none => l2
    let expPart : Option (List Char × List Char) := match l3 with
      | c :: r =>
        if c = 'e' ∨ c = 'E' then
          let signedExp : List Char × List Char := match r with
            | s :: r2 => if s = '+' ∨ s = '-' then ([c, s], r2) else ([c], r)
            | [] => ([c], r)
          match signedExp.2 with
          | d :: _ => if d.isDigit then
              let sp := signedExp.2.span Char.isDigit
              some (signedExp.1 ++ sp.1, sp.2)
            else none
          | [] => none
        else none
      | [] => none
    let l4 := match expPart with | some ex => ex.2 | none => l3
    let tok : List Char := (if neg then ['-'] else []) ++ ds ++
      (match fracPart with | some fr => fr.1 | none => []) ++
      (match expPart with | some ex => ex.1 | none => [])
    let consumed := tok.length
    if fracPart = none ∧ expPart = none then
      let v : Int := if neg then -(digitsToNat ds : Int) else (digitsToNat ds : Int)
      some (.int v, l4, p + consumed)
    else
      some (.float (String.mk tok), l4, p + consumed)

mutual

/-- One json value scanned at the current position, as the py scanner:
strings, objects, arrays, the three literals, numbers, then the NaN and
Infinity extensions, else an Expecting value error at this position. -/
def parseJsonValue (fuel : Nat) (l : List Char) (p : Nat) :
    Except (String × Nat) (Json × List Char × Nat) :=
  match fuel with
  | 0 => .error ("fuel exhausted", p)
  | fuel + 1 =>
    match l with
    | [] => .error ("Expecting value", p)
    | c :: rest =>
      if c = '"' then
        match parseJsonString p (rest.length + 1) rest (p + 1) with
        | .ok (cs, r, q) => .ok (.str (String.mk cs), r, q)
        | .error err => .error err
      else if c = lbrace then parseJsonObj fuel rest (p + 1)
      else if c = '[' then parseJsonArr fuel rest (p + 1)
      else if ['n', 'u', 'l', 'l'].isPrefixOf l then .ok (.null, l.drop 4, p + 4)
      else if ['t', 'r', 'u', 'e'].isPrefixOf l then .ok (.bool true, l.drop 4, p + 4)
      else if ['f', 'a', 'l', 's', 'e'].isPrefixOf l then .ok (.bool false, l.drop 5, p + 5)
      else
        match parseJsonNumber l p with
        | some r => .ok r
        | none =>
          if ['N', 'a', 'N'].isPrefixOf l then .ok (.float "NaN", l.drop 3, p + 3)
          else if ['I', 'n', 'f', 'i', 'n', 'i', 't', 'y'].isPrefixOf l then
            .ok (.float "Infinity", l.drop 8, p + 8)
          else if ['-', 'I', 'n', 'f', 'i', 'n', 'i', 't', 'y'].isPrefixOf l then
            .ok (.float "-Infinity", l.drop 9, p + 9)
          else .error ("Expecting value", p)
termination_by structural fuel

/-- Object body after the opening brace. -/
def parseJsonObj (fuel : Nat) (l : List Char) (p : Nat) :
    Except (String × Nat) (Json × List Char × Nat) :=
  match fuel with
  | 0 => .error ("fuel exhausted", p)
  | fuel + 1 =>
    let sw := skipJsonWs l p
    match sw.1 with
    | [] => .error ("Expecting property name enclosed in double quotes", sw.2)
    | c :: rest =>
      if c = rbrace then .ok (.obj [], rest, sw.2 + 1)
      else if c = '"' then parseJsonObjMembers fuel [] rest (sw.2 + 1)
      else .error ("Expecting property name enclosed in double quotes", sw.2)
termination_by structural fuel

/-- Members of an object, positioned right after the opening quote of the
next key. Pairs are accumulated in order and turned into a Python dict at
the closing brace. -/
def parseJsonObjMembers (fuel : Nat) (acc : List (String × Json)) (l : List Char) (p : Nat) :
    Except (String × Nat) (Json × List Char × Nat) :=
  match fuel with
  | 0 => .error ("fuel exhausted", p)
  | fuel + 1 =>
    match parseJsonString (p - 1) (l.length + 1) l p with
    | .error err => .error err
    | .ok (key, l1, p1) =>
      let sw1 := skipJsonWs l1 p1
      match sw1.1 with
      | ':' :: l2 =>
        let sw2 := skipJsonWs l2 (sw1.2 + 1)
        match parseJsonValue fuel sw2.1 sw2.2 with
        | .error err => .error err
        | .ok (v, l3, p3) =>
          let acc2 := acc ++ [(String.mk key, v)]
          let sw3 := skipJsonWs l3 p3
          match sw3.1 with
          | c :: l4 =>
            if c = rbrace then .ok (.obj (dictOfPairs acc2), l4, sw3.2 + 1)
            else if c = ',' then
              let sw4 := skipJsonWs l4 (sw3.2 + 1)
              match sw4.1 with
              | '"' :: l5 => parseJsonObjMembers fuel acc2 l5 (sw4.2 + 1)
              | _ => .error ("Expecting property name enclosed in double quotes", sw4.2)
            else .error ("Expecting \x27,\x27 delimiter", sw3.2)
          | [] => .error ("Expecting \x27,\x27 delimiter", sw3.2)
      | _ => .error ("Expecting \x27:\x27 delimiter", sw1.2)
termination_by structural fuel

/-- Array body after the opening bracket. -/
def parseJsonArr (fuel : Nat) (l : List Char) (p : Nat) :
    Except (String × Nat) (Json × List Char × Nat) :=
  match fuel with
  | 0 => .error ("fuel exhausted", p)
  | fuel + 1 =>
    let sw := skipJsonWs l p
    match sw.1 with
    | ']' :: rest => .ok (.arr [], rest, sw.2 + 1)
    | _ => parseJsonArrElems fuel [] sw.1 sw.2
termination_by structural fuel

/-- Elements of a non-empty array, positioned at the next value. -/
def parseJsonArrElems (fuel : Nat) (acc : List Json) (l : List Char) (p : Nat) :
    Except (String × Nat) (Json × List Char × Nat) :=
  match fuel with
  | 0 => .error ("fuel exhausted", p)
  | fuel + 1 =>
    match parseJsonValue fuel l p with
    | .error err => .error err
    | .ok (v, l1, p1) =>
      let acc2 := acc ++ [v]
      let sw := skipJsonWs l1 p1
      match sw.1 with
      | ']' :: l2 => .ok (.arr acc2, l2, sw.2 + 1)
      | ',' :: l2 =>
        let sw2 := skipJsonWs l2 (sw.2 + 1)
        parseJsonArrElems fuel acc2 sw2.1 sw2.2
      | _ => .error ("Expecting \x27,\x27 delimiter", sw.2)

termination_by structural fuel
end

/-- Python json.loads with strict set to False: skip whitespace, scan one
value, skip whitespace, and fail with Extra data at the position of the
first trailing non-whitespace character if the input is not exhausted.
Errors carry the decoder message and the failure position. -/
def jsonLoads (l : List Char) : Except (String × Nat) Json :=
  let sw := skipJsonWs l 0
  match parseJsonValue (l.length + 1) sw.1 sw.2 with
  | .error err => .error err
  | .ok (v, rest, p) =>
    let sw2 := skipJsonWs rest p
    if sw2.1 = [] then .ok v else .error ("Extra data", sw2.2)

-- The three output-parsing strategies of agent.py.

/-- Errors raised by parse_json_blob. The first constructor is the
dedicated multiple-tool-calls ValueError; the second is the generic
decode ValueError carrying the decoder message, the failure position and
the sliced blob (from which its message renders a short context window);
the third models the catch-all branch for non-decoder exceptions. -/
inductive BlobError where
  | multipleToolCalls
  | invalidJson (msg : String) (pos : Nat) (blob : List Char)
  | pyError (msg : String)

/-- Line number of a position inside a blob, one-based, as in the str form
of a json decode error. -/
def jsonLineOf (blob : List Char) (pos : Nat) : Nat :=
  1 + ((blob.take pos).filter (fun c => c = '\n')).length

/-- Column number of a position inside a blob, one-based. -/
def jsonColOf (blob : List Char) (pos : Nat) : Nat :=
  match lastIdx '\n' (blob.take pos) with
  | some i => pos - i
  | none => pos + 1

/-- Message text of a BlobError, mirroring the ValueError messages raised
by parse_json_blob, including the str form of the decode error with its
line, column and character position and the context window around the
failure position. -/
def blobErrMessage : BlobError → String
  | .multipleToolCalls =>
    "JSON is invalid: you probably tried to provide multiple tool calls in one action. PROVIDE ONLY ONE TOOL CALL."
  | .invalidJson msg pos blob =>
    "The JSON blob you used is invalid due to the following error: " ++ msg ++
    ": line " ++ toString (jsonLineOf blob pos) ++ " column " ++ toString (jsonColOf blob pos) ++
    " (char " ++ toString pos ++ ").\n" ++
    "JSON blob was: " ++ String.mk blob ++ ", decoding failed on that specific part of the blob:\n" ++
    String.mk [apos] ++ String.mk (pySliceInt blob ((pos : Int) - 4) ((pos : Int) + 5)) ++ String.mk [apos] ++ "."
  | .pyError msg => "Error in parsing the JSON blob: " ++ msg

/-- parse_json_blob: slice from the first opening brace to the last
closing brace, replace each backslash-quote pair with an apostrophe,
decode as json in non-strict mode. On a decode error, raise the dedicated
multiple-tool-calls error when the three characters around the failure
position are a closing brace, a comma and a newline, else the generic
decode error; a missing closing brace raises the catch-all branch with
the IndexError message of the empty match-list indexing. -/
def parse_json_blob (l : List Char) : Except BlobError Json :=
  let first := pyFind [lbrace] l
  match lastIdx rbrace l with
  | none => .error (.pyError "list index out of range")
  | some last =>
    let blob := pyReplace ['\\', '"'] [apos] (pySliceInt l first ((last : Int) + 1))
    match jsonLoads blob with
    | .ok v => .ok v
    | .error ep =>
      if pySliceInt blob ((ep.2 : Int) - 1) ((ep.2 : Int) + 2) = [rbrace, ',', '\n'] then
        .error .multipleToolCalls
      else .error (.invalidJson ep.1 ep.2 blob)

/-- Python membership test for a key of a decoded json dict. -/
def jsonHasKey (k : String) (fields : List (String × Json)) : Bool :=
  (assocLookup k fields).isSome

/-- parse_json_tool_call: strip the json code-fence markers, run
parse_json_blob, and return the action value paired with the optional
action_input value; raise a missing-keys ValueError when the decoded
object has no action key. A decoded blob is always a dict here because
the slice produced by parse_json_blob starts at an opening brace, so the
non-object branch is unreachable for decodable inputs. -/
def parse_json_tool_call (l : List Char) : Except BlobError (Json × Option Json) :=
  let l1 := pyReplace "```json".toList [] l
  let l2 := pyReplace "```".toList [] l1
  match parse_json_blob l2 with
  | .error e => .error e
  | .ok tc =>
    match tc with
    | .obj fields =>
      if jsonHasKey "action" fields ∧ jsonHasKey "action_input" fields then
        .ok ((assocLookup "action" fields).getD .null, assocLookup "action_input" fields)
      else if jsonHasKey "action" fields then
        .ok ((assocLookup "action" fields).getD .null, none)
      else
        .error (.pyError ("Missing keys: [" ++
          strJoin ", " (((["action", "action_input"].filter
            (fun k => ¬ jsonHasKey k fields))).map
            (fun k => String.mk [apos] ++ k ++ String.mk [apos])) ++ "] in blob"))
    | _ => .error (.pyError "blob is not a json object")

/-- Content of a fenced block starting here: the shortest run of
characters followed by a newline and a closing fence, the non-greedy
group of the fence regular expression. -/
def contentUpToClose : List Char → Option (List Char)
  | [] => none
  | c :: rest =>
    if ('\n' :: btick :: btick :: [btick]).isPrefixOf (c :: rest) then some []
    else (contentUpToClose rest).map (fun cs => c :: cs)

/-- Match of the fenced-code regular expression at the current position:
three backticks, an optional py or python tag (tried in that order, then
the empty tag), a newline, then the non-greedy body up to a newline and
three backticks. -/
def fenceAt (l : List Char) : Option (List Char) :=
  if (btick :: btick :: [btick]).isPrefixOf l then
    let r := l.drop 3
    let tryTag := fun (tag : List Char) =>
      if (tag ++ ['\n']).isPrefixOf r then contentUpToClose (r.drop (tag.length + 1)) else none
    match tryTag ['p', 'y'] with
    | some g => some g
    | none =>
      match tryTag ['p', 'y', 't', 'h', 'o', 'n'] with
      | some g => some g
      | none => tryTag []
  else none

/-- re.search over the fence pattern: the match at the leftmost position
where one exists. -/
def reSearchFence : List Char → Option (List Char)
  | [] => none
  | c :: rest =>
    match fenceAt (c :: rest) with
    | some g => some g
    | none => reSearchFence rest

/-- Message of the ValueError raised by parse_code_blob when the regular
expression does not match: the formatted text embeds the AttributeError
of calling group on None and echoes the expected pattern and an example. -/
def codeBlobErrorMsg : String :=
  "\nThe code blob you used is invalid: due to the following error: " ++
  String.mk [apos] ++ "NoneType" ++ String.mk [apos] ++
  " object has no attribute " ++ String.mk [apos] ++ "group" ++ String.mk [apos] ++
  "\nThis means that the regex pattern ```(?:py|python)?\\n(.*?)\\n``` was not respected: make sure to include code with the correct pattern, for instance:\nThoughts: Your thoughts\nCode:\n```py\n# Your python code here\n```<end_action>"

/-- parse_code_blob: extract and strip the body of the first fenced code
block, else raise the descriptive ValueError. -/
def parse_code_blob (l : List Char) : Except String (List Char) :=
  match reSearchFence l with
  | some g => .ok (pyStrip g)
  | none => .error codeBlobErrorMsg

/-- Parsed tool input of the text tool-call parser: a decoded json value
when the raw input contains an opening brace, else the trimmed,
quote-stripped raw text. -/
inductive TextToolInput where
  | json (j : Json)
  | raw (s : String)

/-- First element of a Python split result (always non-empty). -/
def splitHead (ls : List (List Char)) : List Char :=
  match ls with
  | [] => []
  | x :: _ => x

/-- parse_text_tool_call: truncate at the first Observation marker when
present, take the text right after the first Action marker when present
(element one of the split), split on the Action input marker into exactly
a tool name and a tool input, decode the input with parse_json_blob when
it contains an opening brace, else strip and unquote it; the tool name is
stripped of whitespace, quotes and backslashes. Every failure is wrapped
into the single descriptive ValueError of the except branch. -/
def parse_text_tool_call (text : List Char) : Except String (String × TextToolInput) :=
  let inner : Except String (String × TextToolInput) :=
    let t1 := if pyContains "Observation:".toList text then
        splitHead (pySplit "Observation:".toList text)
      else text
    let t2e : Except String (List Char) :=
      if pyContains "Action:".toList t1 then
        match pySplit "Action:".toList t1 with
        | _ :: b :: _ => .ok b
        | _ => .error "list index out of range"
      else .ok t1
    match t2e with
    | .error e => .error e
    | .ok t2 =>
      match pySplit "Action input:".toList t2 with
      | [tool_name, tool_input] =>
        let nm := String.mk (pyReplace ['\\'] [] (pyReplace ['"'] [] (pyStrip tool_name)))
        if pyContains [lbrace] tool_input then
          match parse_json_blob tool_input with
          | .ok j => .ok (nm, .json j)
          | .error e => .error (blobErrMessage e)
        else .ok (nm, .raw (String.mk (pyReplace ['"'] [] (pyStrip tool_input))))
      | parts =>
        if parts.length < 2 then
          .error ("not enough values to unpack (expected 2, got " ++ toString parts.length ++ ")")
        else .error "too many values to unpack (expected 2)"
  match inner with
  | .ok r => .ok r
  | .error e =>
    .error ("Error in parsing the text tool call: " ++ e ++
      ". Be sure to provide the correct format. DO NOT repeat your previous incorrect tool call.")

-- Data model: runtime values, capabilities and the tool registry.

/-- Runtime Python values flowing through shared state and tool calls: a
string, an integer, an abstract non-string object identified by a number, a
keyword mapping, or None. -/
inductive PyVal where
  | str (s : String)
  | int (n : Int)
  | obj (id : Nat)
  | dict (fields : List (String × PyVal))
  | none_

/-- Arguments of a tool invocation: a single positional string or a
keyword mapping. -/
inductive ToolArgs where
  | positional (s : String)
  | keyword (kwargs : List (String × PyVal))

/-- A concrete Tool: name, description, declared inputs, output type and
the callable itself, which may raise (modelled by Except with the
exception text as the error). -/
structure Tool where
  name : String
  description : String
  inputs : List (String × String)
  output_type : String
  call : ToolArgs → Except String PyVal

/-- A deferred tool reference, as the PreTool dataclass of tools.py: the
output type is kept as its type name. -/
structure PreTool where
  name : String
  inputs : List (String × String)
  output_type : String
  task : String
  description : String
  repo_id : Option String

/-- A registry entry: either a concrete Tool or a deferred PreTool, the
two cases distinguished at runtime with isinstance in agent.py. -/
inductive ToolEntry where
  | tool (t : Tool)
  | preTool (p : PreTool)

/-- Name of a registry entry. -/
def ToolEntry.entryName : ToolEntry → String
  | .tool t => t.name
  | .preTool p => p.name

/-- Whether a registry entry is a concrete Tool. -/
def ToolEntry.isConcrete : ToolEntry → Bool
  | .tool _ => true
  | .preTool _ => false

/-- The tool registry: an insertion-ordered mapping from name to entry. -/
structure Toolbox where
  tools : List (String × ToolEntry)

/-- Modelled from the spec: the deferred-tool resolution boundary load_tool
takes a task identifier or repository identifier and returns a concrete
capability. The function is imported from the library tools module, which
is not part of this excerpt, so it is a parameter here; by the external
interface contract it always yields a concrete Tool. -/
def LoadTool : Type := String → Tool

/-- Toolbox._load_tools_if_needed: replace every entry that is not a
concrete Tool with the tool loaded from its task identifier, or from its
repository identifier when that is set. -/
def Toolbox.load_tools_if_needed (lt : LoadTool) (tb : Toolbox) : Toolbox :=
  ⟨tb.tools.map (fun kv =>
    match kv.2 with
    | .tool t => (kv.1, ToolEntry.tool t)
    | .preTool p =>
      (kv.1, ToolEntry.tool (lt (match p.repo_id with | none => p.task | some r => r))))⟩

/-- Toolbox.add_tool: raise a KeyError for a name already present, else
insert the entry under its name. -/
def Toolbox.add_tool (tb : Toolbox) (tool : ToolEntry) : Except String Toolbox :=
  if (assocLookup tool.entryName tb.tools).isSome then
    .error ("Error: tool " ++ String.mk [apos] ++ tool.entryName ++ String.mk [apos] ++
      " already exists in the toolbox.")
  else .ok ⟨assocInsert tool.entryName tool tb.tools⟩

/-- Toolbox.remove_tool: raise a KeyError enumerating the known names for
an absent name, else delete the entry. -/
def Toolbox.remove_tool (tb : Toolbox) (tool_name : String) : Except String Toolbox :=
  if (assocLookup tool_name tb.tools).isSome then
    .ok ⟨tb.tools.filter (fun kv => kv.1 ≠ tool_name)⟩
  else
    .error ("Error: tool " ++ tool_name ++ " not found in toolbox for removal, should be instead one of [" ++
      strJoin ", " (tb.tools.map (fun kv => String.mk [apos] ++ kv.1 ++ String.mk [apos])) ++ "].")

/-- Toolbox.update_tool: raise a KeyError for an absent name, else replace
the entry in place. -/
def Toolbox.update_tool (tb : Toolbox) (tool : ToolEntry) : Except String Toolbox :=
  if (assocLookup tool.entryName tb.tools).isSome then
    .ok ⟨assocInsert tool.entryName tool tb.tools⟩
  else
    .error ("Error: tool " ++ tool.entryName ++ " not found in toolbox for update, should be instead one of [" ++
      strJoin ", " (tb.tools.map (fun kv => String.mk [apos] ++ kv.1 ++ String.mk [apos])) ++ "].")

/-- Loop body of add_base_tools: add every default tool except the python
interpreter unless explicitly requested, raising on a duplicate name. The
process-wide cached default set is the defaults parameter; its entries
are PreTool references as built by setup_default_tools in tools.py. -/
def Toolbox.addToolsLoop (flag : Bool) (tb : Toolbox) : List ToolEntry → Except String Toolbox
  | [] => .ok tb
  | t :: rest =>
    if t.entryName ≠ "python_interpreter" ∨ flag then
      match Toolbox.add_tool tb t with
      | .error e => .error e
      | .ok tb2 => Toolbox.addToolsLoop flag tb2 rest
    else Toolbox.addToolsLoop flag tb rest

/-- Toolbox.add_base_tools: add the shared default tools, then materialize
deferred entries with _load_tools_if_needed. -/
def Toolbox.add_base_tools (lt : LoadTool) (defaults : List ToolEntry) (add_python_interpreter : Bool)
    (tb : Toolbox) : Except String Toolbox :=
  match Toolbox.addToolsLoop add_python_interpreter tb defaults with
  | .error e => .error e
  | .ok tb2 => .ok (Toolbox.load_tools_if_needed lt tb2)

/-- Toolbox.__init__: build the registry with a dict comprehension over
the initial list (later tools silently overwriting earlier ones with the
same name), optionally add the base tools, then materialize deferred
entries with _load_tools_if_needed. -/
def Toolbox.init (lt : LoadTool) (tools : List ToolEntry) (add_base : Bool)
    (defaults : List ToolEntry) : Except String Toolbox :=
  if add_base then
    match Toolbox.add_base_tools lt defaults false
        ⟨tools.foldl (fun d t => assocInsert t.entryName t d) []⟩ with
    | .error e => .error e
    | .ok tb2 => .ok (Toolbox.load_tools_if_needed lt tb2)
  else .ok (Toolbox.load_tools_if_needed lt ⟨tools.foldl (fun d t => assocInsert t.entryName t d) []⟩)

/-- Whether every registry entry is a concrete Tool. -/
def Toolbox.allConcrete (tb : Toolbox) : Bool :=
  tb.tools.all (fun kv => kv.2.isConcrete)

-- Execution engine.

/-- Modelled from the spec: get_tool_description_with_args renders a
capability into a human-readable description by substituting its name,
description, inputs and output type into a per-capability template. The
concrete helper and its default template live in the library tools
module, which is not part of this excerpt. -/
def get_tool_description_with_args (t : Tool) : String :=
  "- " ++ t.name ++ ": " ++ t.description ++ "\n    Takes inputs: " ++
  strJoin ", " (t.inputs.map (fun kv => kv.1 ++ " (" ++ kv.2 ++ ")")) ++
  "\n    Returns an output of type: " ++ t.output_type

/-- Errors leaving execute_tool_call: the single AgentExecutionError kind
with its message, or an exception escaping unwrapped (which the code
never produces, as proved below). -/
inductive ExecError where
  | agentExecution (msg : String)
  | uncaught (msg : String)

/-- State-variable dereferencing: each keyword value that is a string
equal to a key present in shared state is replaced by the stored value,
one in-place dict write per key of the loop in execute_tool_call. -/
def resolveStateVars (state : List (String × PyVal)) (kwargs : List (String × PyVal)) :
    List (String × PyVal) :=
  kwargs.map (fun kv =>
    match kv.2 with
    | PyVal.str s =>
      match assocLookup s state with
      | some w => (kv.1, w)
      | none => kv
    | _ => kv)

/-- Arguments as passed to the tool itself: a raw string is forwarded
positionally, a mapping goes through state-variable dereferencing. -/
def resolveToolArgs (state : List (String × PyVal)) (arguments : ToolArgs) : ToolArgs :=
  match arguments with
  | .positional s => .positional s
  | .keyword kwargs => .keyword (resolveStateVars state kwargs)

/-- The generic usage reminder inserted between the original error and the
tool description in the wrapped execution error. -/
def execReminder : String :=
  "\nYou should only use this tool with a correct input.\nAs a reminder, this tool" ++
  String.mk [apos] ++ "s description is the following:\n"

/-- Agent.execute_tool_call: raise an unknown-tool AgentExecutionError for
a name absent from the registry; otherwise dereference state variables in
mapping arguments and invoke the tool, re-wrapping any exception into an
AgentExecutionError whose message embeds the original error, the usage
reminder and the rendered tool description. -/
def Agent.execute_tool_call (tools : List (String × Tool)) (state : List (String × PyVal))
    (tool_name : String) (arguments : ToolArgs) : Except ExecError PyVal :=
  match assocLookup tool_name tools with
  | none =>
    .error (.agentExecution ("Error: unknown tool " ++ tool_name ++ ", should be instead one of [" ++
      strJoin ", " (tools.map (fun kv => String.mk [apos] ++ kv.1 ++ String.mk [apos])) ++ "]."))
  | some t =>
    match t.call (resolveToolArgs state arguments) with
    | .ok v => .ok v
    | .error e =>
      .error (.agentExecution ("Error in tool call execution: " ++ e ++ execReminder ++
        get_tool_description_with_args t))

/-- The caller-visible arguments mapping after execute_tool_call returns
or raises: when the tool exists the dereferencing loop has rewritten the
mapping in place before invocation (whether or not the invocation then
raises); when the name is unknown the error is raised before the loop and
the mapping is untouched. -/
def execute_tool_call_final_arguments (tools : List (String × Tool))
    (state : List (String × PyVal)) (tool_name : String) (arguments : ToolArgs) : ToolArgs :=
  match assocLookup tool_name tools with
  | none => arguments
  | some _ => resolveToolArgs state arguments

-- Transcript builder.

/-- Message roles of the model-engine boundary. -/
inductive MessageRole where
  | system
  | user
  | assistant
  | toolResponse
deriving Repr, DecidableEq

/-- A role-tagged message. -/
structure Message where
  role : MessageRole
  content : String
deriving Repr, DecidableEq

/-- A step record after the initialization entry: each field optional, the
heterogeneous key set of a step-log dict. The tool_call, error and
observation payloads are kept as their str renderings. -/
structure StepEntry where
  llm_output : Option String := none
  facts : Option String := none
  plan : Option String := none
  tool_call : Option String := none
  task : Option String := none
  error : Option String := none
  observation : Option String := none

/-- The retry admonition appended after an error payload. -/
def retryNote : String :=
  "\nNow let" ++ String.mk [apos] ++
  "s retry: take care not to repeat previous errors! If you have retried several times, try a completely different approach.\n"

/-- Loop body of write_inner_memory_from_logs: the messages appended to
the memory for one enumerated step record. -/
def stepFold (summary_mode : Bool) (memory : List Message) (ie : Nat × StepEntry) : List Message :=
  let i := ie.1
  let step_log := ie.2
  let m1 := match step_log.llm_output with
    | some s => if ¬ summary_mode then memory ++ [⟨.assistant, String.mk (pyStrip s.toList)⟩] else memory
    | none => memory
  let m2 := match step_log.facts with
    | some s => m1 ++ [⟨.assistant, "[FACTS LIST]:\n" ++ String.mk (pyStrip s.toList)⟩]
    | none => m1
  let m3 := match step_log.plan with
    | some s => if ¬ summary_mode then m2 ++ [⟨.assistant, "[PLAN]:\n" ++ String.mk (pyStrip s.toList)⟩] else m2
    | none => m2
  let m4 := match step_log.tool_call with
    | some s => if summary_mode then m3 ++ [⟨.assistant, "[STEP " ++ toString i ++ " TOOL CALL]: " ++ String.mk (pyStrip s.toList)⟩] else m3
    | none => m3
  let m5 := match step_log.task with
    | some s => m4 ++ [⟨.user, "New task:\n" ++ s⟩]
    | none => m4
  let m6 := match step_log.error with
    | some e => m5 ++ [⟨.toolResponse, "[OUTPUT OF STEP " ++ toString i ++ "] Error: " ++ e ++ retryNote⟩]
    | none =>
      match step_log.observation with
      | some o => m5 ++ [⟨.toolResponse, "[OUTPUT OF STEP " ++ toString i ++ "] Observation:\n" ++ o⟩]
      | none => m5
  m6

/-- Agent.write_inner_memory_from_logs: start from the task message alone
in summary mode, or the system-prompt message followed by the task
message in full mode, then fold every enumerated step record of the
trailing log slice into the memory. -/
def write_inner_memory_from_logs (system_prompt task : String) (steps : List StepEntry)
    (summary_mode : Bool) : List Message :=
  let prompt_message : Message := ⟨.system, system_prompt⟩
  let task_message : Message := ⟨.user, "Task: " ++ task⟩
  (steps.enum).foldl (stepFold summary_mode)
    (if summary_mode then [task_message] else [prompt_message, task_message])

/-- The transcript contribution of one step record as the specification
states it: in full mode the raw model output and the plan are included
and tool-call records are omitted; in summary mode the reverse; facts,
sub-tasks and the error-or-observation tool response appear in both
modes, labelled with the step index. -/
def specTranscriptStep (summary_mode : Bool) (i : Nat) (e : StepEntry) : List Message :=
  (match e.llm_output with
    | some s => if summary_mode then [] else [⟨.assistant, String.mk (pyStrip s.toList)⟩]
    | none => []) ++
  (match e.facts with
    | some s => [⟨.assistant, "[FACTS LIST]:\n" ++ String.mk (pyStrip s.toList)⟩]
    | none => []) ++
  (match e.plan with
    | some s => if summary_mode then [] else [⟨.assistant, "[PLAN]:\n" ++ String.mk (pyStrip s.toList)⟩]
    | none => []) ++
  (match e.tool_call with
    | some s => if summary_mode then [⟨.assistant, "[STEP " ++ toString i ++ " TOOL CALL]: " ++ String.mk (pyStrip s.toList)⟩] else []
    | none => []) ++
  (match e.task with
    | some s => [⟨.user, "New task:\n" ++ s⟩]
    | none => []) ++
  (match e.error with
    | some er => [⟨.toolResponse, "[OUTPUT OF STEP " ++ toString i ++ "] Error: " ++ er ++ retryNote⟩]
    | none =>
      match e.observation with
      | some o => [⟨.toolResponse, "[OUTPUT OF STEP " ++ toString i ++ "] Observation:\n" ++ o⟩]
      | none => [])

-- The single-shot CodeAgent run contract.

/-- format_prompt_with_tools: substitute the rendered tool descriptions,
and the quoted tool names when the tag is present. -/
def format_prompt_with_tools (tb : List (String × Tool)) (prompt_template : String) : String :=
  let tool_descriptions := strJoin "\n" (tb.map (fun kv => get_tool_description_with_args kv.2))
  let prompt := String.mk (pyReplace "<<tool_descriptions>>".toList tool_descriptions.toList prompt_template.toList)
  if pyContains "<<tool_names>>".toList prompt.toList then
    String.mk (pyReplace "<<tool_names>>".toList
      (strJoin ", " (tb.map (fun kv => String.mk [apos] ++ kv.1 ++ String.mk [apos]))).toList
      prompt.toList)
  else prompt

/-- Rendering of a Python list of strings, as str applied to a list. -/
def renderPyStrList (xs : List String) : String :=
  "[" ++ strJoin ", " (xs.map (fun s => String.mk [apos] ++ s ++ String.mk [apos])) ++ "]"

/-- format_prompt_with_imports: raise an AgentError when the template
lacks the authorized-imports tag, else substitute the rendered list. -/
def format_prompt_with_imports (prompt_template : String) (authorized_imports : List String) :
    Except String String :=
  if pyContains "<<authorized_imports>>".toList prompt_template.toList then
    .ok (String.mk (pyReplace "<<authorized_imports>>".toList
      (renderPyStrList authorized_imports).toList prompt_template.toList))
  else
    .error ("Tag " ++ String.mk [apos] ++ "<<authorized_imports>>" ++ String.mk [apos] ++
      " should be provided in the prompt.")

/-- Agent.extract_action: split the model output on the token and take the
last two segments as rationale and action; None models the IndexError
branch when the token is absent. -/
def extract_action (llm_output split_token : String) : Option (String × String) :=
  match (pySplit split_token.toList llm_output.toList).reverse with
  | action :: rationale :: _ => some (String.mk rationale, String.mk action)
  | _ => none

/-- The model-engine boundary: a callable from a message sequence to
generated text, which may raise. -/
def LlmEngine : Type := List Message → Except String String

/-- The code-execution boundary of evaluate_python_code: a code string and
the shared state go in; the final value and the mutated state come out,
or an exception. The always-available base execution primitives merged
into the tool namespace are internal to this boundary. -/
def PyEvaluator : Type := String → List (String × PyVal) → Except String (PyVal × List (String × PyVal))

/-- Value returned by a completed CodeAgent.run call. -/
inductive CodeRunResult where
  | generatedCode (code : String)
  | output (v : PyVal)
  | errorString (msg : String)

/-- CodeAgent.run for a call without extra keyword arguments: rebuild the
system prompt (raising the configuration AgentError when the
authorized-imports tag is missing), call the engine on the two-message
prompt (an engine exception propagates to the caller), return the raw
output when only generated code is wanted, extract the action after the
last Code: token falling back to the whole output, parse the fenced code
block returning a descriptive string on failure, then evaluate the code
returning either its output or a descriptive execution-error string; a
missing print_outputs state key raises a KeyError inside the guarded
block and so also becomes an error string. -/
def CodeAgent.run (tb : List (String × Tool)) (system_prompt_template : String)
    (authorized_imports : List String) (llm_engine : LlmEngine) (python_evaluator : PyEvaluator)
    (task : String) (return_generated_code : Bool) : Except String CodeRunResult :=
  let sp0 := format_prompt_with_tools tb system_prompt_template
  match format_prompt_with_imports sp0 authorized_imports with
  | .error e => .error e
  | .ok system_prompt =>
    match llm_engine [⟨.system, system_prompt⟩, ⟨.user, "Task: " ++ task⟩] with
    | .error e => .error e
    | .ok llm_output =>
      if return_generated_code then .ok (.generatedCode llm_output)
      else
        let code_action := match extract_action llm_output "Code:" with
          | some ra => ra.2
          | none => llm_output
        match parse_code_blob code_action.toList with
        | .error e =>
          .ok (.errorString ("Error in code parsing: " ++ e ++ ". Be sure to provide correct code"))
        | .ok code =>
          match python_evaluator (String.mk code) [] with
          | .error e =>
            .ok (.errorString ("Error in execution: " ++ e ++ ". Be sure to provide correct code."))
          | .ok (output, st2) =>
            match assocLookup "print_outputs" st2 with
            | some _ => .ok (.output output)
            | none =>
              .ok (.errorString ("Error in execution: " ++ String.mk [apos] ++ "print_outputs" ++
                String.mk [apos] ++ ". Be sure to provide correct code."))

-- Concrete fixtures used by the witnesses and counterexamples.

/-- A tool that returns its received arguments, used to observe what the
execution engine passes to a capability. -/
def probeTool : Tool :=
  ⟨"probe", "returns its received arguments", [("path", "text")], "any",
    fun a => match a with
    | .positional s => .ok (.str s)
    | .keyword kwargs => .ok (.dict kwargs)⟩

/-- A tool whose invocation always raises. -/
def failingTool : Tool :=
  ⟨"boom", "always fails", [("x", "text")], "text",
    fun _ => .error "RuntimeError: kaput"⟩

/-- First of two tools sharing one name. -/
def dummyToolA : Tool :=
  ⟨"dup", "first version", [], "text", fun _ => .ok PyVal.none_⟩

/-- Second of two tools sharing one name. -/
def dummyToolB : Tool :=
  ⟨"dup", "second version", [], "text", fun _ => .ok PyVal.none_⟩

/-- A deferred tool reference with no repository identifier. -/
def samplePreTool : PreTool :=
  ⟨"stt", [("audio", "audio")], "text", "speech-to-text", "transcribes audio", none⟩

/-- A loader standing for the deferred-tool resolution boundary in the
concrete witnesses. -/
def dummyLoad : LoadTool := fun _ => dummyToolA

-- Helper lemmas about the Python string primitives.

/-- A pattern with a head character absent from the text never occurs. -/
theorem pyContains_false_of_head_notMem (c : Char) (pat l : List Char)
    (hpat : pat.head? = some c) (hmem : c ∉ l) : pyContains pat l = false := by
  induction l with
  | nil =>
    cases pat with
    | nil => simp at hpat
    | cons a t => simp [pyContains, List.isPrefixOf]
  | cons x rest ih =>
    have hx : c ≠ x := fun h => hmem (h ▸ List.mem_cons_self x rest)
    have hrest : c ∉ rest := fun h => hmem (List.mem_cons_of_mem x h)
    cases pat with
    | nil => simp at hpat
    | cons a t =>
      have ha : a = c := by simpa using hpat
      subst ha
      have hbeq : (a == x) = false := beq_eq_false_iff_ne.mpr hx
      simp [pyContains, List.isPrefixOf, hbeq, ih hrest]

/-- A fueled replacement of a pattern that does not occur leaves the text
unchanged, whatever the fuel. -/
theorem pyReplaceAux_eq_self_of_not_contains (pat repl : List Char) (fuel : Nat) (l : List Char)
    (h : pyContains pat l = false) : pyReplaceAux pat repl fuel l = l := by
  induction fuel generalizing l with
  | zero => cases l <;> rfl
  | succ n ih =>
    cases l with
    | nil => rfl
    | cons c rest =>
      simp only [pyContains, Bool.or_eq_false_iff] at h
      rw [pyReplaceAux]
      rw [if_neg (fun hc => by simp [hc.2] at h)]
      rw [ih rest h.2]

/-- Replacing a pattern that does not occur leaves the text unchanged. -/
theorem pyReplace_eq_self_of_not_contains (pat repl l : List Char)
    (h : pyContains pat l = false) : pyReplace pat repl l = l :=
  pyReplaceAux_eq_self_of_not_contains pat repl l.length l h

/-- A fueled split on a pattern that does not occur yields the whole
text, whatever the fuel. -/
theorem pySplitAux_eq_single_of_not_contains (pat : List Char) (fuel : Nat) (l : List Char)
    (h : pyContains pat l = false) : pySplitAux pat fuel l = [l] := by
  induction fuel generalizing l with
  | zero => cases l <;> rfl
  | succ n ih =>
    cases l with
    | nil => rfl
    | cons c rest =>
      simp only [pyContains, Bool.or_eq_false_iff] at h
      rw [pySplitAux]
      rw [if_neg (fun hc => by simp [hc.2] at h)]
      rw [ih rest h.2]

/-- Splitting on a pattern that does not occur yields the whole text. -/
theorem pySplit_eq_single_of_not_contains (pat l : List Char)
    (h : pyContains pat l = false) : pySplit pat l = [l] :=
  pySplitAux_eq_single_of_not_contains pat l.length l h

/-- A pattern equal to some element list of a two-part split occurs. -/
theorem pyContains_true_of_split_pair (pat l a b : List Char)
    (h : pySplit pat l = [a, b]) : pyContains pat l = true := by
  by_contra hc
  have hfalse : pyContains pat l = false := by
    cases hv : pyContains pat l with
    | false => rfl
    | true => exact absurd hv hc
  rw [pySplit_eq_single_of_not_contains pat l hfalse] at h
  simp at h

/-- Finding a single character absent from the prefix locates the head of
the suffix. -/
theorem pyFindAux_char_append (c : Char) (p t : List Char) (i : Nat) (hmem : c ∉ p) :
    pyFindAux [c] (p ++ c :: t) i = ((i + p.length : Nat) : Int) := by
  induction p generalizing i with
  | nil =>
    simp [pyFindAux, List.isPrefixOf]
  | cons x rest ih =>
    have hx : c ≠ x := fun h => hmem (h ▸ List.mem_cons_self x rest)
    have hrest : c ∉ rest := fun h => hmem (List.mem_cons_of_mem x h)
    have hbeq : (c == x) = false := beq_eq_false_iff_ne.mpr hx
    simp only [List.cons_append, pyFindAux, List.append_eq]
    rw [if_neg (by simp [List.isPrefixOf, hbeq])]
    rw [ih (i + 1) hrest]
    simp only [List.length_cons]
    omega

/-- pyFind version of the previous lemma. -/
theorem pyFind_char_append (c : Char) (p t : List Char) (hmem : c ∉ p) :
    pyFind [c] (p ++ c :: t) = (p.length : Int) := by
  unfold pyFind
  rw [pyFindAux_char_append c p t 0 hmem]
  simp

/-- A character absent from a list has no last occurrence. -/
theorem lastIdx_eq_none_of_notMem (c : Char) (l : List Char) (h : c ∉ l) :
    lastIdx c l = none := by
  induction l with
  | nil => rfl
  | cons x rest ih =>
    have hx : c ≠ x := fun hh => h (hh ▸ List.mem_cons_self x rest)
    have hrest : c ∉ rest := fun hh => h (List.mem_cons_of_mem x hh)
    rw [lastIdx, ih hrest]
    simp [hx.symm]

/-- The last occurrence of a character occurring right before a suffix
free of it is at the boundary. -/
theorem lastIdx_append_concat (c : Char) (x q : List Char) (h : c ∉ q) :
    lastIdx c (x ++ c :: q) = some x.length := by
  induction x with
  | nil =>
    rw [List.nil_append, lastIdx, lastIdx_eq_none_of_notMem c q h]
    simp
  | cons d rest ih =>
    rw [List.cons_append, lastIdx, ih]
    simp

/-- The Python slice of the middle third of a concatenation. -/
theorem pySliceInt_middle (p s q : List Char) :
    pySliceInt (p ++ s ++ q) (p.length : Int) ((p.length : Int) + (s.length : Int)) = s := by
  unfold pySliceInt
  rw [if_neg (by omega), if_neg (by omega)]
  have h1 : (min ((p.length : Int) + (s.length : Int)) (((p ++ s ++ q).length : Nat) : Int)).toNat
      = p.length + s.length := by
    simp only [List.length_append]
    omega
  have h2 : (min ((p.length : Int)) (((p ++ s ++ q).length : Nat) : Int)).toNat = p.length := by
    simp only [List.length_append]
    omega
  rw [h1, h2]
  have htake : (p ++ s ++ q).take (p.length + s.length) = p ++ s := by
    have hlen : (p ++ s).length = p.length + s.length := by simp
    rw [← hlen, List.take_left]
  rw [htake]
  exact List.drop_left p s

/-- Materialization leaves only concrete tools in the registry. -/
theorem allConcrete_load_tools (lt : LoadTool) (tb : Toolbox) :
    Toolbox.allConcrete (Toolbox.load_tools_if_needed lt tb) = true := by
  unfold Toolbox.allConcrete Toolbox.load_tools_if_needed
  rw [List.all_eq_true]
  intro kv hkv
  rw [List.mem_map] at hkv
  obtain ⟨orig, _, horig⟩ := hkv
  cases h2 : orig.2 with
  | tool t => rw [h2] at horig; rw [← horig]; rfl
  | preTool pt => rw [h2] at horig; rw [← horig]; rfl

/-- Folding an append-step function equals the flat map of the per-element
contributions. -/
theorem foldl_append_eq_flatMap {α β : Type} (f : α → List β) (l : List α) (init : List β) :
    l.foldl (fun acc x => acc ++ f x) init = init ++ l.flatMap f := by
  induction l generalizing init with
  | nil => simp
  | cons x rest ih =>
    simp only [List.foldl_cons, List.flatMap_cons]
    rw [ih]
    simp [List.append_assoc]

/-- A json object text embedded between a prefix free of opening braces
and a suffix free of closing braces is sliced out exactly and decoded by
parse_json_blob, provided the object text contains no backslash-quote
pair that the repair step would rewrite. -/
theorem parse_json_blob_embedded (p mid q : List Char) (v : Json)
    (hp : lbrace ∉ p) (hq : rbrace ∉ q)
    (hesc : pyContains ['\\', '"'] (lbrace :: (mid ++ [rbrace])) = false)
    (hjson : jsonLoads (lbrace :: (mid ++ [rbrace])) = .ok v) :
    parse_json_blob (p ++ (lbrace :: (mid ++ [rbrace])) ++ q) = .ok v := by
  have hfind : pyFind [lbrace] (p ++ (lbrace :: (mid ++ [rbrace])) ++ q) = (p.length : Int) := by
    have hsh : p ++ (lbrace :: (mid ++ [rbrace])) ++ q = p ++ lbrace :: ((mid ++ [rbrace]) ++ q) := by
      simp [List.append_assoc]
    rw [hsh]
    exact pyFind_char_append lbrace p _ hp
  have hlast : lastIdx rbrace (p ++ (lbrace :: (mid ++ [rbrace])) ++ q)
      = some (p ++ lbrace :: mid).length := by
    have hsh : p ++ (lbrace :: (mid ++ [rbrace])) ++ q = (p ++ lbrace :: mid) ++ rbrace :: q := by
      simp [List.append_assoc]
    rw [hsh]
    exact lastIdx_append_concat rbrace (p ++ lbrace :: mid) q hq
  have hslice : pySliceInt (p ++ (lbrace :: (mid ++ [rbrace])) ++ q) (p.length : Int)
      (((p ++ lbrace :: mid).length : Int) + 1) = lbrace :: (mid ++ [rbrace]) := by
    have harith : (((p ++ lbrace :: mid).length : Int) + 1)
        = (p.length : Int) + ((lbrace :: (mid ++ [rbrace])).length : Int) := by
      simp only [List.length_append, List.length_cons, List.length_nil]
      push_cast
      ring
    rw [harith]
    exact pySliceInt_middle p (lbrace :: (mid ++ [rbrace])) q
  unfold parse_json_blob
  rw [hfind, hlast]
  simp only [hslice, pyReplace_eq_self_of_not_contains _ _ _ hesc, hjson]

/-- The transcript loop body appends exactly the per-step messages of the
specification description. -/
theorem stepFold_eq_spec (summary_mode : Bool) (memory : List Message) (i : Nat) (e : StepEntry) :
    stepFold summary_mode memory (i, e) = memory ++ specTranscriptStep summary_mode i e := by
  unfold stepFold specTranscriptStep
  rcases e with ⟨llm, facts, plan, tc, task, err, obs⟩
  cases llm <;> cases facts <;> cases plan <;> cases tc <;> cases task <;> cases err <;> cases obs <;>
    cases summary_mode <;> simp

-- Claim theorems.

/-- Claim C2 (corrected), amended theorem: for an input built of one
well-formed json object text (decoded by the loader to an object with an
action key) surrounded by a prefix free of opening braces and a suffix
free of closing braces, none of it containing backticks and the object
text containing no backslash-quote pair, parse_json_tool_call returns
exactly that object's action value paired with its optional action_input
value. -/
theorem parse_json_tool_call_embedded_object (p mid q : List Char)
    (fields : List (String × Json)) (av : Json)
    (hp : lbrace ∉ p) (hq : rbrace ∉ q)
    (hb : btick ∉ p ++ (lbrace :: (mid ++ [rbrace])) ++ q)
    (hesc : pyContains ['\\', '"'] (lbrace :: (mid ++ [rbrace])) = false)
    (hjson : jsonLoads (lbrace :: (mid ++ [rbrace])) = .ok (.obj fields))
    (ha : assocLookup "action" fields = some av) :
    parse_json_tool_call (p ++ (lbrace :: (mid ++ [rbrace])) ++ q) =
      .ok (av, assocLookup "action_input" fields) := by
  have h1 : pyContains "```json".toList (p ++ (lbrace :: (mid ++ [rbrace])) ++ q) = false :=
    pyContains_false_of_head_notMem btick _ _ (by decide) hb
  have h2 : pyContains "```".toList (p ++ (lbrace :: (mid ++ [rbrace])) ++ q) = false :=
    pyContains_false_of_head_notMem btick _ _ (by decide) hb
  unfold parse_json_tool_call
  simp only [pyReplace_eq_self_of_not_contains _ _ _ h1,
    pyReplace_eq_self_of_not_contains _ _ _ h2,
    parse_json_blob_embedded p mid q (Json.obj fields) hp hq hesc hjson]
  cases hai : assocLookup "action_input" fields with
  | some x => simp [jsonHasKey, ha, hai]
  | none => simp [jsonHasKey, ha, hai]

/-- Witness for C2: a concrete object with prefix and suffix noise is
extracted, with no action_input key present. -/
theorem parse_json_tool_call_embedded_object_witness :
    parse_json_tool_call ("noise ".toList ++ (lbrace :: ("\"action\":\"go\"".toList ++ [rbrace])) ++
        " tail".toList) = .ok (.str "go", none) :=
  parse_json_tool_call_embedded_object "noise ".toList "\"action\":\"go\"".toList " tail".toList
    [("action", Json.str "go")] (Json.str "go")
    (by decide) (by decide) (by decide) (by decide) rfl rfl

/-- Counterexample for C2: with an arbitrary prefix that contains an
opening brace, the slice taken by parse_json_blob starts at that brace
and decoding fails, so the call raises instead of returning the embedded
object's action value. -/
theorem parse_json_tool_call_brace_prefix_fails :
    parse_json_tool_call "x\x7b \x7b\"action\":\"a\"\x7d".toList =
      .error (.invalidJson "Expecting property name enclosed in double quotes" 2
        "\x7b \x7b\"action\":\"a\"\x7d".toList)
    ∧ parse_json_tool_call "x\x7b \x7b\"action\":\"a\"\x7d".toList ≠ .ok (.str "a", none) := by
  have he : parse_json_tool_call "x\x7b \x7b\"action\":\"a\"\x7d".toList =
      .error (.invalidJson "Expecting property name enclosed in double quotes" 2
        "\x7b \x7b\"action\":\"a\"\x7d".toList) := rfl
  exact ⟨he, by rw [he]; simp⟩

/-- Claim C3 (confirmed): two concatenated json objects raise the
dedicated multiple-tool-calls error, not the generic decode error. -/
theorem parse_json_blob_concatenated_objects :
    parse_json_blob "\x7b\"action\":\"a\"\x7d,\n\x7b\"action\":\"b\"\x7d".toList =
      .error BlobError.multipleToolCalls := rfl

/-- Claim C4 (corrected), amended theorem: parse_text_tool_call truncates
at the first Observation marker, takes the segment right after the first
Action marker (element one of the split, not the text after the last
marker), splits it on the Action input marker into a tool name and a tool
input, and json-decodes the input when it contains an opening brace; the
tool name is stripped of whitespace, quotes and backslashes. -/
theorem parse_text_tool_call_first_action_segment
    (t A rest mid name inp : List Char) (v : Json)
    (h1 : pySplit "Observation:".toList t = [A, rest])
    (h2 : pySplit "Action:".toList A = [[], mid])
    (h3 : pySplit "Action input:".toList mid = [name, inp])
    (h4 : pyContains [lbrace] inp = true)
    (h5 : parse_json_blob inp = .ok v) :
    parse_text_tool_call t =
      .ok (String.mk (pyReplace ['\\'] [] (pyReplace ['"'] [] (pyStrip name))), .json v) := by
  have hobs := pyContains_true_of_split_pair _ _ _ _ h1
  have hact := pyContains_true_of_split_pair _ _ _ _ h2
  unfold parse_text_tool_call
  simp only [hobs, h1, hact, h2, h3, h4, h5, splitHead, if_true]

/-- Witness for C4: the round-trip example of the specification, with the
Observation suffix discarded. -/
theorem parse_text_tool_call_first_action_segment_witness :
    parse_text_tool_call "Action:\n\"foo\"\nAction input: \x7b\"x\": 1\x7d\nObservation: ...".toList =
      .ok ("foo", .json (.obj [("x", .int 1)])) :=
  parse_text_tool_call_first_action_segment
    "Action:\n\"foo\"\nAction input: \x7b\"x\": 1\x7d\nObservation: ...".toList
    "Action:\n\"foo\"\nAction input: \x7b\"x\": 1\x7d\n".toList
    " ...".toList
    "\n\"foo\"\nAction input: \x7b\"x\": 1\x7d\n".toList
    "\n\"foo\"\n".toList
    " \x7b\"x\": 1\x7d\n".toList
    (.obj [("x", .int 1)])
    (by decide) (by decide) (by decide) (by decide) rfl

/-- Counterexample for C4: with two Action markers the code takes the
segment between the first and second marker, which has no Action input
marker, and raises the wrapped unpacking error instead of returning the
pair extracted after the last marker. -/
theorem parse_text_tool_call_two_action_markers :
    parse_text_tool_call "Action: a Action: b Action input: c".toList =
      .error ("Error in parsing the text tool call: not enough values to unpack (expected 2, got 1). Be sure to provide the correct format. DO NOT repeat your previous incorrect tool call.")
    ∧ parse_text_tool_call "Action: a Action: b Action input: c".toList ≠
      .ok ("b", .raw "c") := by
  have he : parse_text_tool_call "Action: a Action: b Action input: c".toList =
      .error ("Error in parsing the text tool call: not enough values to unpack (expected 2, got 1). Be sure to provide the correct format. DO NOT repeat your previous incorrect tool call.") := rfl
  exact ⟨he, by rw [he]; simp⟩

/-- Claim C1 (corrected), amended theorem: once the model call has
returned output, a single-shot CodeAgent.run with return_generated_code
false always hands the caller a returned value, for every model output
and every behavior of the code evaluator: parse failures and execution
failures are returned as descriptive error strings, never raised. The
hypothesis states the setup-time requirement that the formatted system
prompt carries the authorized-imports tag. -/
theorem codeAgent_run_returns_after_model_success
    (tb : List (String × Tool)) (spt : String) (ai : List String) (out : String)
    (ev : PyEvaluator) (task : String)
    (htag : pyContains "<<authorized_imports>>".toList
      (format_prompt_with_tools tb spt).toList = true) :
    ∃ r, CodeAgent.run tb spt ai (fun _ => .ok out) ev task false = .ok r := by
  unfold CodeAgent.run format_prompt_with_imports
  simp only [htag, if_true, Bool.false_eq_true, if_false]
  split
  · exact ⟨_, rfl⟩
  · split
    · exact ⟨_, rfl⟩
    · split
      · exact ⟨_, rfl⟩
      · exact ⟨_, rfl⟩

/-- Witness for C1: a concrete run whose model output has no fenced code
block returns the descriptive parsing-error string rather than raising. -/
theorem codeAgent_run_returns_after_model_success_witness :
    ∃ r, CodeAgent.run [] "tools: <<tool_descriptions>> imports: <<authorized_imports>>" ["requests"]
      (fun _ => .ok "no fenced code here") (fun _ st => .ok (PyVal.none_, st)) "add numbers" false =
      .ok r :=
  codeAgent_run_returns_after_model_success [] "tools: <<tool_descriptions>> imports: <<authorized_imports>>"
    ["requests"] "no fenced code here" (fun _ st => .ok (PyVal.none_, st)) "add numbers" (by decide)

/-- Counterexample for C1: an exception of the model engine itself is not
caught by run and propagates to the caller, so model failures do escape
as exceptions, unlike parse and execution failures. -/
theorem codeAgent_run_engine_error_propagates :
    CodeAgent.run [] "<<authorized_imports>>" [] (fun _ => .error "ConnectionError: engine down")
      (fun _ st => .ok (PyVal.none_, st)) "do it" false = .error "ConnectionError: engine down" := rfl

/-- Claim C5 (corrected), amended theorem: construction and
add_base_tools end with materialization, so every registry entry they
leave behind is a concrete Tool; add_tool and update_tool perform no
materialization. -/
theorem toolbox_materializes_on_init_and_base_tools :
    (∀ (lt : LoadTool) (tools : List ToolEntry) (flag : Bool) (defaults : List ToolEntry)
      (tb : Toolbox), Toolbox.init lt tools flag defaults = .ok tb → Toolbox.allConcrete tb = true)
    ∧ (∀ (lt : LoadTool) (defaults : List ToolEntry) (flag : Bool) (tb tb2 : Toolbox),
      Toolbox.add_base_tools lt defaults flag tb = .ok tb2 → Toolbox.allConcrete tb2 = true) := by
  constructor
  · intro lt tools flag defaults tb h
    unfold Toolbox.init at h
    split at h
    · split at h
      · exact Except.noConfusion h
      · injection h with h2
        rw [← h2]
        exact allConcrete_load_tools lt _
    · injection h with h2
      rw [← h2]
      exact allConcrete_load_tools lt _
  · intro lt defaults flag tb tb2 h
    unfold Toolbox.add_base_tools at h
    split at h
    · exact Except.noConfusion h
    · injection h with h2
      rw [← h2]
      exact allConcrete_load_tools lt _

/-- Witness for C5: a toolbox built from one deferred reference, and a
toolbox given the same reference through add_base_tools, both come out
fully concrete. -/
theorem toolbox_materializes_witness :
    Toolbox.allConcrete ⟨[("stt", ToolEntry.tool dummyToolA)]⟩ = true
    ∧ Toolbox.allConcrete ⟨[("stt", ToolEntry.tool dummyToolA)]⟩ = true :=
  ⟨toolbox_materializes_on_init_and_base_tools.1 dummyLoad [ToolEntry.preTool samplePreTool]
      false [] ⟨[("stt", ToolEntry.tool dummyToolA)]⟩ rfl,
    toolbox_materializes_on_init_and_base_tools.2 dummyLoad [ToolEntry.preTool samplePreTool]
      false ⟨[]⟩ ⟨[("stt", ToolEntry.tool dummyToolA)]⟩ rfl⟩

/-- Counterexample for C5: add_tool inserts a deferred reference without
materializing it, so right after this mutation the registry holds an
entry that is not a concrete Tool. -/
theorem toolbox_add_tool_keeps_deferred_entry :
    Toolbox.add_tool ⟨[]⟩ (ToolEntry.preTool samplePreTool) =
      .ok ⟨[("stt", ToolEntry.preTool samplePreTool)]⟩
    ∧ Toolbox.allConcrete ⟨[("stt", ToolEntry.preTool samplePreTool)]⟩ = false :=
  ⟨rfl, rfl⟩

/-- Claim C6 (confirmed): execute_tool_call substitutes every argument
value that is a string naming a state key with the stored value before
invoking the tool, as observed by a probe tool returning its received
arguments; in particular a path argument holding the name img receives
the stored object, not the string. -/
theorem execute_tool_call_dereferences_state_variables :
    (∀ (state : List (String × PyVal)) (kwargs : List (String × PyVal)),
      Agent.execute_tool_call [("probe", probeTool)] state "probe" (.keyword kwargs) =
        .ok (.dict (kwargs.map (fun kv =>
          match kv.2 with
          | PyVal.str s =>
            match assocLookup s state with
            | some w => (kv.1, w)
            | none => kv
          | _ => kv))))
    ∧ Agent.execute_tool_call [("probe", probeTool)] [("img", PyVal.obj 7)] "probe"
        (.keyword [("path", PyVal.str "img")]) = .ok (.dict [("path", PyVal.obj 7)]) := by
  constructor
  · intro state kwargs
    rfl
  · rfl

/-- Claim C7 (confirmed): for a tool present in the registry, an
exception of the invocation is re-raised as the single
AgentExecutionError kind whose message embeds the original error, the
usage reminder and the rendered tool description; and every error leaving
execute_tool_call for a present tool is of that kind, never an unwrapped
tool exception. -/
theorem execute_tool_call_wraps_exceptions :
    (∀ (tools : List (String × Tool)) (state : List (String × PyVal)) (tool_name : String)
      (t : Tool) (arguments : ToolArgs) (e : String),
      assocLookup tool_name tools = some t →
      t.call (resolveToolArgs state arguments) = .error e →
      Agent.execute_tool_call tools state tool_name arguments =
        .error (.agentExecution ("Error in tool call execution: " ++ e ++ execReminder ++
          get_tool_description_with_args t)))
    ∧ (∀ (tools : List (String × Tool)) (state : List (String × PyVal)) (tool_name : String)
      (t : Tool) (arguments : ToolArgs) (r : ExecError),
      assocLookup tool_name tools = some t →
      Agent.execute_tool_call tools state tool_name arguments = .error r →
      ∃ msg, r = ExecError.agentExecution msg) := by
  constructor
  · intro tools state tool_name t arguments e hl hc
    unfold Agent.execute_tool_call
    simp only [hl, hc]
  · intro tools state tool_name t arguments r hl hr
    unfold Agent.execute_tool_call at hr
    simp only [hl] at hr
    cases hc : t.call (resolveToolArgs state arguments) with
    | ok v =>
      simp only [hc] at hr
      exact Except.noConfusion hr
    | error e =>
      simp only [hc] at hr
      injection hr with h2
      exact ⟨_, h2.symm⟩

/-- Witness for C7: a concrete failing tool produces exactly the wrapped
execution error. -/
theorem execute_tool_call_wraps_exceptions_witness :
    Agent.execute_tool_call [("boom", failingTool)] [] "boom" (.positional "x") =
      .error (.agentExecution ("Error in tool call execution: RuntimeError: kaput" ++ execReminder ++
        get_tool_description_with_args failingTool)) :=
  execute_tool_call_wraps_exceptions.1 [("boom", failingTool)] [] "boom" failingTool
    (.positional "x") "RuntimeError: kaput" rfl rfl

/-- Claim C8 (confirmed): the transcript equals the mode-dependent header
(task message alone in summary mode, system-prompt message then task
message in full mode) followed by the per-step messages, which include
the raw model output and the plan only in full mode and the
index-prefixed tool call only in summary mode. -/
theorem write_inner_memory_mode_selection (system_prompt task : String)
    (steps : List StepEntry) (summary_mode : Bool) :
    write_inner_memory_from_logs system_prompt task steps summary_mode =
      (if summary_mode then [⟨.user, "Task: " ++ task⟩]
       else [⟨.system, system_prompt⟩, ⟨.user, "Task: " ++ task⟩]) ++
      (steps.enum).flatMap (fun ie => specTranscriptStep summary_mode ie.1 ie.2) := by
  unfold write_inner_memory_from_logs
  have hbody : stepFold summary_mode =
      fun memory ie => memory ++ specTranscriptStep summary_mode ie.1 ie.2 := by
    funext memory ie
    exact stepFold_eq_spec summary_mode memory ie.1 ie.2
  rw [hbody, foldl_append_eq_flatMap]

/-- Claim C9 (corrected), amended theorem: when the tool name is present,
the caller-visible arguments mapping after execute_tool_call returns or
raises has every string value naming a state key replaced by the stored
value. -/
theorem execute_tool_call_rewrites_caller_mapping
    (tools : List (String × Tool)) (state : List (String × PyVal)) (tool_name : String)
    (t : Tool) (kwargs : List (String × PyVal))
    (h : assocLookup tool_name tools = some t) :
    execute_tool_call_final_arguments tools state tool_name (.keyword kwargs) =
      .keyword (kwargs.map (fun kv =>
        match kv.2 with
        | PyVal.str s =>
          match assocLookup s state with
          | some w => (kv.1, w)
          | none => kv
        | _ => kv)) := by
  unfold execute_tool_call_final_arguments
  simp only [h]
  rfl

/-- Witness for C9: with the probe tool present, the caller mapping ends
up dereferenced. -/
theorem execute_tool_call_rewrites_caller_mapping_witness :
    execute_tool_call_final_arguments [("probe", probeTool)] [("img", PyVal.obj 7)] "probe"
      (.keyword [("path", PyVal.str "img")]) = .keyword [("path", PyVal.obj 7)] :=
  execute_tool_call_rewrites_caller_mapping [("probe", probeTool)] [("img", PyVal.obj 7)]
    "probe" probeTool [("path", PyVal.str "img")] rfl

/-- Counterexample for C9: with an unknown tool name the unknown-tool
error is raised before the dereferencing loop, so after the raise the
caller's mapping still holds the state-key string unchanged, contrary to
the claim that substitution happens whenever the call raises. -/
theorem execute_tool_call_unknown_tool_no_substitution :
    Agent.execute_tool_call [] [("img", PyVal.obj 7)] "resize"
      (.keyword [("path", PyVal.str "img")]) =
      .error (.agentExecution "Error: unknown tool resize, should be instead one of [].")
    ∧ execute_tool_call_final_arguments [] [("img", PyVal.obj 7)] "resize"
      (.keyword [("path", PyVal.str "img")]) = .keyword [("path", PyVal.str "img")]
    ∧ (ToolArgs.keyword [("path", PyVal.str "img")] ≠ ToolArgs.keyword [("path", PyVal.obj 7)]) := by
  refine ⟨rfl, rfl, ?_⟩
  intro h
  injection h with h2
  simp at h2

/-- Claim C10 (confirmed): constructing a Toolbox from a list holding two
tools with one name raises nothing and keeps only the last of them,
while add_tool on an existing name raises the duplicate-name KeyError. -/
theorem toolbox_ctor_keeps_last_duplicate (a b : Tool) (lt : LoadTool)
    (defaults : List ToolEntry) (h : a.name = b.name) :
    Toolbox.init lt [ToolEntry.tool a, ToolEntry.tool b] false defaults =
      .ok ⟨[(b.name, ToolEntry.tool b)]⟩
    ∧ Toolbox.add_tool ⟨[(b.name, ToolEntry.tool b)]⟩ (ToolEntry.tool a) =
      .error ("Error: tool " ++ String.mk [apos] ++ a.name ++ String.mk [apos] ++
        " already exists in the toolbox.") := by
  constructor
  · unfold Toolbox.init Toolbox.load_tools_if_needed
    simp [ToolEntry.entryName, assocInsert, h]
  · unfold Toolbox.add_tool
    rw [if_pos]
    · simp [ToolEntry.entryName]
    · simp [ToolEntry.entryName, assocLookup, h]

/-- Witness for C10: two concrete tools named dup. -/
theorem toolbox_ctor_keeps_last_duplicate_witness :
    Toolbox.init dummyLoad [ToolEntry.tool dummyToolA, ToolEntry.tool dummyToolB] false [] =
      .ok ⟨[("dup", ToolEntry.tool dummyToolB)]⟩
    ∧ Toolbox.add_tool ⟨[("dup", ToolEntry.tool dummyToolB)]⟩ (ToolEntry.tool dummyToolA) =
      .error ("Error: tool " ++ String.mk [apos] ++ "dup" ++ String.mk [apos] ++
        " already exists in the toolbox.") :=
  toolbox_ctor_keeps_last_duplicate dummyToolA dummyToolB dummyLoad [] rfl
